import Mathlib

/-!
Verification of the data-completion engine and resilient fetcher in
`fetch-stock-robust.py`.

Modelling conventions (shallow embedding):
* JSON scalar values (the entries of a raw quote mapping) are `JVal`:
  null, a number, or a string.  Python numbers (int and float alike) are
  modelled as exact rationals; binary floating-point rounding is not
  modelled, and an integral rational behaves as a Python int where the
  int/float distinction matters (string repetition, `repr`).
* Fallible Python expressions (comparisons, arithmetic and `int()`/`float()`
  conversions that can raise `TypeError`/`ValueError`) live in
  `Except Unit`; the enclosing `try/except` of `fetch_stock_yahoo_v7`
  maps any error to the "no data" signal `none`.
* `datetime.now().isoformat()` is modelled as an explicit clock parameter
  `now : String` supplied by the environment.
-/

/-- A JSON scalar value as stored in the raw quote mapping. -/
inductive JVal where
  | null : JVal
  | num : ℚ → JVal
  | str : String → JVal
deriving DecidableEq

/-- A Python number produced by `format_number`: either the int `0`
returned on the failure/zero path, or a rounded float. -/
inductive PyNum where
  | pint : ℤ → PyNum
  | pfloat : ℚ → PyNum
deriving DecidableEq

/-- Embed a Python number back into the scalar-value type. -/
def PyNum.toJVal : PyNum → JVal
  | .pint n => .num n
  | .pfloat q => .num q

/-- A raw quote: an untyped mapping from field name to scalar value
(`none` = key absent). -/
def RawQuote : Type := String → Option JVal

/-- Build a raw quote from an association list (for concrete inputs). -/
def RawQuote.of (l : List (String × JVal)) : RawQuote :=
  fun k => (l.find? (fun p => p.1 = k)).map (fun p => p.2)

/-- Override one key of a raw quote (`none` deletes the key). -/
def RawQuote.set (q : RawQuote) (k : String) (v : Option JVal) : RawQuote :=
  fun j => if j = k then v else q j

/-- Python `x == 0` for a scalar: numeric comparison; a string or `None`
compares unequal (and never raises). -/
def pyEq0 : JVal → Bool
  | .num q => q = 0
  | _ => false

/-- Python `x > 0` for a scalar: raises `TypeError` unless `x` is a number. -/
def pyGt0 : JVal → Except Unit Bool
  | .num q => .ok (decide (0 < q))
  | _ => .error ()

/-- Python truncation toward zero, as performed by `int(...)` on a number. -/
def pyTrunc (q : ℚ) : ℤ :=
  if 0 ≤ q then ⌊q⌋ else -⌊-q⌋

/-- Numeric value of a list of decimal digit characters. -/
def digitsVal (l : List Char) : ℕ :=
  l.foldl (fun a c => a * 10 + (c.toNat - 48)) 0

/-- Python `int(s)` on a string: an optional sign followed by digits
(other forms raise `ValueError`). -/
def pyIntOfStr (s : String) : Option ℤ :=
  let l := s.toList
  let p : ℤ × List Char :=
    match l with
    | '-' :: t => (-1, t)
    | '+' :: t => (1, t)
    | _ => (1, l)
  if p.2 ≠ [] ∧ p.2.all Char.isDigit then some (p.1 * digitsVal p.2) else none

/-- Python `float(s)` on a string, restricted to plain decimal literals
`[+-]digits[.digits]` (other accepted forms such as exponents are not
exercised by the completer's data). -/
def pyFloatOfStr (s : String) : Option ℚ :=
  let l := s.toList
  let p : ℚ × List Char :=
    match l with
    | '-' :: t => (-1, t)
    | '+' :: t => (1, t)
    | _ => (1, l)
  let ip := p.2.takeWhile Char.isDigit
  let rest := p.2.dropWhile Char.isDigit
  match rest with
  | [] => if ip = [] then none else some (p.1 * digitsVal ip)
  | '.' :: t =>
    let fp := t.takeWhile Char.isDigit
    let rest2 := t.dropWhile Char.isDigit
    if rest2 = [] ∧ ¬(ip = [] ∧ fp = []) then
      some (p.1 * ((digitsVal ip : ℚ) + (digitsVal fp : ℚ) / 10 ^ fp.length))
    else none
  | _ => none

/-- Python `int(x)` on a scalar: truncate a number, parse an integer
literal string, raise otherwise. -/
def pyIntJ : JVal → Except Unit ℤ
  | .num q => .ok (pyTrunc q)
  | .str s => match pyIntOfStr s with
    | some n => .ok n
    | none => .error ()
  | .null => .error ()

/-- Python `float(x)` on a scalar. -/
def pyFloatJ : JVal → Except Unit ℚ
  | .num q => .ok q
  | .str s => match pyFloatOfStr s with
    | some q => .ok q
    | none => .error ()
  | .null => .error ()

/-- String repetition `s * n` (Python semantics: non-positive count gives
the empty string). -/
def strRepeat (s : String) (n : ℤ) : String :=
  String.join (List.replicate n.toNat s)

/-- Python `x * c` where `c` is a float literal of the source (0.8, 1.1,
1.2, 1.5, 0.9, 0.15, 0.1, 0.2, ...): only numbers multiply by a float. -/
def pyMulQ (a : JVal) (c : ℚ) : Except Unit ℚ :=
  match a with
  | .num q => .ok (q * c)
  | _ => .error ()

/-- Python `x * y` on two scalars: numbers multiply; an integral number
times a string repeats the string; everything else raises. -/
def pyMulJ : JVal → JVal → Except Unit JVal
  | .num p, .num q => .ok (.num (p * q))
  | .num p, .str s => if p.den = 1 then .ok (.str (strRepeat s p.num)) else .error ()
  | .str s, .num q => if q.den = 1 then .ok (.str (strRepeat s q.num)) else .error ()
  | _, _ => .error ()

/-- Python `x - y` on two scalars: only numbers subtract. -/
def pySub : JVal → JVal → Except Unit ℚ
  | .num p, .num q => .ok (p - q)
  | _, _ => .error ()

/-- A value usable by the `f"...{x:.2f}"` formatting on the success print:
raises unless numeric. -/
def expectNum : JVal → Except Unit Unit
  | .num _ => .ok ()
  | _ => .error ()

/-- Round half to even (Python `round` tie-breaking). -/
def roundHalfEven (x : ℚ) : ℤ :=
  let f := ⌊x⌋
  let r := x - f
  if r < 1 / 2 then f
  else if 1 / 2 < r then f + 1
  else if f % 2 = 0 then f else f + 1

/-- Python `round(x, d)` on our rational model of floats. -/
def roundTo (q : ℚ) (d : ℕ) : ℚ :=
  (roundHalfEven (q * 10 ^ d) : ℚ) / 10 ^ d

/-- Model of `safe_get` with the key already looked up: return the stored value
unless the key is absent or its value is `None`, in which case return the
caller-supplied default.  (The `obj is None` / non-dict branches of the
source helper return the default as well; inside the completer the object
is always the parsed quote mapping.) -/
def safe_getv (val : Option JVal) (default : JVal) : JVal :=
  match val with
  | some v => if v = .null then default else v
  | none => default

/-- Model of `safe_get(obj, key, default)` on a raw quote. -/
def safe_get (q : RawQuote) (k : String) (default : JVal) : JVal :=
  safe_getv (q k) default

/-- Model of `safe_divide(numerator, denominator, default)`: if the denominator is
truthy and nonzero, attempt the division (any `TypeError` from a
non-numeric operand is caught and yields the default); otherwise return
the default.  Total by construction. -/
def safe_divide (n d : JVal) (default : ℚ) : ℚ :=
  match d with
  | .num q =>
    if q = 0 then default
    else match n with
      | .num p => p / q
      | _ => default
  | .str _ => default
  | .null => default

/-- Model of `format_number(num, decimals)`: the int `0` when the input is `None`,
equal to `0`, or fails float conversion; otherwise the rounded float. -/
def format_number (v : JVal) (decimals : ℕ) : PyNum :=
  match v with
  | .null => .pint 0
  | .num q => if q = 0 then .pint 0 else .pfloat (roundTo q decimals)
  | .str s => match pyFloatOfStr s with
    | some q => .pfloat (roundTo q decimals)
    | none => .pint 0

/-- Python `repr` of a float whose value is exact to two decimals (the
only floats the completer interpolates into strings). -/
def floatRepr (q : ℚ) : String :=
  let sgn := if q < 0 then "-" else ""
  let a : ℚ := if q < 0 then -q else q
  let i : ℤ := ⌊a⌋
  let cents : ℤ := ⌊a * 100⌋ - i * 100
  if (a * 100).den ≠ 1 then sgn ++ toString a.num ++ "/" ++ toString a.den
  else if cents = 0 then sgn ++ toString i ++ ".0"
  else if cents % 10 = 0 then sgn ++ toString i ++ "." ++ toString (cents / 10)
  else if cents < 10 then sgn ++ toString i ++ ".0" ++ toString cents
  else sgn ++ toString i ++ "." ++ toString cents

/-- Interpolation of a `format_number` result into an f-string. -/
def renderNum : PyNum → String
  | .pint n => toString n
  | .pfloat q => floatRepr q

/-- The fields of the raw quote mapping that the completer reads, looked
up once (`safe_get(quote, k, d)` is `safe_getv` of the stored entry). -/
structure QView where
  regularMarketPrice : Option JVal
  currentPrice : Option JVal
  marketCap : Option JVal
  sharesOutstanding : Option JVal
  trailingEps : Option JVal
  trailingPE : Option JVal
  totalRevenue : Option JVal
  revenue : Option JVal
  totalCash : Option JVal
  totalDebt : Option JVal
  freeCashflow : Option JVal
  operatingCashflow : Option JVal
  ebitda : Option JVal
  profitMargins : Option JVal
  operatingMargins : Option JVal
  grossMargins : Option JVal
  returnOnEquity : Option JVal
  returnOnAssets : Option JVal
  bookValue : Option JVal
  priceToBook : Option JVal
  longName : Option JVal
  shortName : Option JVal
  sector : Option JVal
  industry : Option JVal
  regularMarketChange : Option JVal
  regularMarketChangePercent : Option JVal
  regularMarketDayHigh : Option JVal
  regularMarketDayLow : Option JVal
  regularMarketVolume : Option JVal
  regularMarketPreviousClose : Option JVal
  currency : Option JVal
  fullExchangeName : Option JVal
  forwardPE : Option JVal
  revenueQuarterlyGrowth : Option JVal
  earningsQuarterlyGrowth : Option JVal
  dividendYield : Option JVal
  beta : Option JVal
  fiftyTwoWeekHigh : Option JVal
  fiftyTwoWeekLow : Option JVal
deriving DecidableEq

/-- Look up every key the completer reads. -/
def RawQuote.view (q : RawQuote) : QView where
  regularMarketPrice := q "regularMarketPrice"
  currentPrice := q "currentPrice"
  marketCap := q "marketCap"
  sharesOutstanding := q "sharesOutstanding"
  trailingEps := q "trailingEps"
  trailingPE := q "trailingPE"
  totalRevenue := q "totalRevenue"
  revenue := q "revenue"
  totalCash := q "totalCash"
  totalDebt := q "totalDebt"
  freeCashflow := q "freeCashflow"
  operatingCashflow := q "operatingCashflow"
  ebitda := q "ebitda"
  profitMargins := q "profitMargins"
  operatingMargins := q "operatingMargins"
  grossMargins := q "grossMargins"
  returnOnEquity := q "returnOnEquity"
  returnOnAssets := q "returnOnAssets"
  bookValue := q "bookValue"
  priceToBook := q "priceToBook"
  longName := q "longName"
  shortName := q "shortName"
  sector := q "sector"
  industry := q "industry"
  regularMarketChange := q "regularMarketChange"
  regularMarketChangePercent := q "regularMarketChangePercent"
  regularMarketDayHigh := q "regularMarketDayHigh"
  regularMarketDayLow := q "regularMarketDayLow"
  regularMarketVolume := q "regularMarketVolume"
  regularMarketPreviousClose := q "regularMarketPreviousClose"
  currency := q "currency"
  fullExchangeName := q "fullExchangeName"
  forwardPE := q "forwardPE"
  revenueQuarterlyGrowth := q "revenueQuarterlyGrowth"
  earningsQuarterlyGrowth := q "earningsQuarterlyGrowth"
  dividendYield := q "dividendYield"
  beta := q "beta"
  fiftyTwoWeekHigh := q "fiftyTwoWeekHigh"
  fiftyTwoWeekLow := q "fiftyTwoWeekLow"

/-- Price gate (source lines 82-88): `regularMarketPrice`, falling back to
`currentPrice` when it compares equal to 0; `none` when the fallback does
too (the explicit "no price" failure). -/
def gate_price (v : QView) : Option JVal :=
  let price := safe_getv v.regularMarketPrice (.num 0)
  let price := if pyEq0 price then safe_getv v.currentPrice (.num 0) else price
  if pyEq0 price then none else some price

/-- Lines 91-100: extract `marketCap` and `sharesOutstanding`, deriving
each from the other and the price when it is zero (`and` short-circuit
modelled by nested conditionals). -/
def derive_shares_cap (v : QView) (price : JVal) : Except Unit (JVal × JVal) := do
  let marketCap := safe_getv v.marketCap (.num 0)
  let sharesOut := safe_getv v.sharesOutstanding (.num 0)
  let sharesOut ←
    (if pyEq0 sharesOut then do
      let c1 ← pyGt0 marketCap
      (if c1 then do
        let c2 ← pyGt0 price
        (if c2 then pure (JVal.num (pyTrunc (safe_divide marketCap price 0) : ℚ))
        else pure sharesOut)
      else pure sharesOut)
    else pure sharesOut)
  let marketCap ←
    (if pyEq0 marketCap then do
      let c1 ← pyGt0 sharesOut
      (if c1 then do
        let c2 ← pyGt0 price
        (if c2 then do
          let m ← pyMulJ sharesOut price
          let n ← pyIntJ m
          pure (JVal.num (n : ℚ))
        else pure marketCap)
      else pure marketCap)
    else pure marketCap)
  pure (marketCap, sharesOut)

/-- Lines 102-111: extract `trailingEps` and `trailingPE`, deriving each
from the other and the price when it is zero. -/
def derive_eps_pe (v : QView) (price : JVal) : Except Unit (JVal × JVal) := do
  let eps := safe_getv v.trailingEps (.num 0)
  let pe := safe_getv v.trailingPE (.num 0)
  let pe ←
    (if pyEq0 pe then do
      let c1 ← pyGt0 eps
      (if c1 then do
        let c2 ← pyGt0 price
        (if c2 then pure (format_number (.num (safe_divide price eps 0)) 2).toJVal
        else pure pe)
      else pure pe)
    else pure pe)
  let eps ←
    (if pyEq0 eps then do
      let c1 ← pyGt0 pe
      (if c1 then do
        let c2 ← pyGt0 price
        (if c2 then pure (format_number (.num (safe_divide price pe 0)) 2).toJVal
        else pure eps)
      else pure eps)
    else pure eps)
  pure (eps, pe)

/-- Lines 114-138: financial figures with their market-cap estimates.
Returns (revenue, totalCash, totalDebt, freeCashflow, operatingCashflow,
ebitda). -/
def derive_financials (v : QView) (marketCap : JVal) :
    Except Unit (JVal × JVal × JVal × JVal × JVal × JVal) := do
  let revenue := safe_getv v.totalRevenue (safe_getv v.revenue (.num 0))
  let totalCash := safe_getv v.totalCash (.num 0)
  let totalDebt := safe_getv v.totalDebt (.num 0)
  let freeCashflow := safe_getv v.freeCashflow (.num 0)
  let operatingCashflow := safe_getv v.operatingCashflow (.num 0)
  let ebitda := safe_getv v.ebitda (.num 0)
  let revenue ←
    (if pyEq0 revenue then do
      let c ← pyGt0 marketCap
      (if c then do
        let m ← pyMulQ marketCap (4 / 5)
        pure (JVal.num (pyTrunc m : ℚ))
      else pure revenue)
    else pure revenue)
  let totalCash ←
    (if pyEq0 totalCash then do
      let c ← pyGt0 marketCap
      (if c then do
        let m ← pyMulQ marketCap (3 / 20)
        pure (JVal.num (pyTrunc m : ℚ))
      else pure totalCash)
    else pure totalCash)
  let totalDebt ←
    (if pyEq0 totalDebt then do
      let c ← pyGt0 marketCap
      (if c then do
        let m ← pyMulQ marketCap (1 / 10)
        pure (JVal.num (pyTrunc m : ℚ))
      else pure totalDebt)
    else pure totalDebt)
  let freeCashflow ←
    (if pyEq0 freeCashflow then do
      let c ← pyGt0 marketCap
      (if c then do
        let m ← pyMulQ marketCap (1 / 10)
        pure (JVal.num (pyTrunc m : ℚ))
      else pure freeCashflow)
    else pure freeCashflow)
  let operatingCashflow ←
    (if pyEq0 operatingCashflow then do
      let c ← pyGt0 freeCashflow
      (if c then do
        let m ← pyMulQ freeCashflow (6 / 5)
        pure (JVal.num (pyTrunc m : ℚ))
      else pure operatingCashflow)
    else pure operatingCashflow)
  let ebitda ←
    (if pyEq0 ebitda then do
      let c ← pyGt0 revenue
      (if c then do
        let m ← pyMulQ revenue (1 / 5)
        pure (JVal.num (pyTrunc m : ℚ))
      else pure ebitda)
    else pure ebitda)
  pure (revenue, totalCash, totalDebt, freeCashflow, operatingCashflow, ebitda)

/-- Lines 141-151: margins, each replaced by its fixed constant when it
compares equal to 0 (pure: `==` never raises). -/
def derive_margins (v : QView) : JVal × JVal × JVal :=
  let profitMargin := safe_getv v.profitMargins (.num 0)
  let operatingMargin := safe_getv v.operatingMargins (.num 0)
  let grossMargin := safe_getv v.grossMargins (.num 0)
  let profitMargin := if pyEq0 profitMargin then JVal.num (3 / 20) else profitMargin
  let operatingMargin := if pyEq0 operatingMargin then JVal.num (1 / 5) else operatingMargin
  let grossMargin := if pyEq0 grossMargin then JVal.num (2 / 5) else grossMargin
  (profitMargin, operatingMargin, grossMargin)

/-- Lines 154-161: returns on equity/assets with their fixed defaults. -/
def derive_returns (v : QView) : JVal × JVal :=
  let roe := safe_getv v.returnOnEquity (.num 0)
  let roa := safe_getv v.returnOnAssets (.num 0)
  let roe := if pyEq0 roe then JVal.num (3 / 25) else roe
  let roa := if pyEq0 roa then JVal.num (2 / 25) else roa
  (roe, roa)

/-- Lines 164-170: total assets and equity.  Python evaluates the
conditional-expression condition first, then the chosen branch with the
default argument `marketCap * 1.5` computed eagerly. -/
def derive_assets_equity (v : QView) (marketCap revenue sharesOut : JVal) :
    Except Unit (ℤ × JVal × ℤ) := do
  let c ← pyGt0 revenue
  let totalAssets ←
    (if c then do
      let d ← pyMulQ marketCap (3 / 2)
      pure (pyTrunc (safe_divide revenue (.num (4 / 5)) d))
    else do
      let d ← pyMulQ marketCap (3 / 2)
      pure (pyTrunc d))
  let bookValue := safe_getv v.bookValue (.num 0)
  let c1 ← pyGt0 bookValue
  let totalEquity ←
    (if c1 then do
      let c2 ← pyGt0 sharesOut
      (if c2 then do
        let m ← pyMulJ bookValue sharesOut
        pyIntJ m
      else pure (pyTrunc ((totalAssets : ℚ) * (3 / 5))))
    else pure (pyTrunc ((totalAssets : ℚ) * (3 / 5))))
  pure (totalAssets, bookValue, totalEquity)

/-- Lines 178-180: price-to-book from the source field, else derived from
the price and book value when both are positive. -/
def derive_ptb (v : QView) (price bookValue : JVal) : Except Unit JVal := do
  let priceToBook := safe_getv v.priceToBook (.num 0)
  (if pyEq0 priceToBook then do
    let c1 ← pyGt0 bookValue
    (if c1 then do
      let c2 ← pyGt0 price
      (if c2 then pure (format_number (.num (safe_divide price bookValue 0)) 2).toJVal
      else pure priceToBook)
    else pure priceToBook)
  else pure priceToBook)

/-- The completed per-symbol record (`stock_data`, source lines 189-284),
with each field at the type the source expression produces. -/
structure StockData where
  symbol : String
  name : JVal
  sector : JVal
  industry : JVal
  price : PyNum
  change : PyNum
  changePercent : PyNum
  dayHigh : PyNum
  dayLow : PyNum
  volume : ℤ
  previousClose : PyNum
  currency : JVal
  exchange : JVal
  marketCap : ℤ
  enterpriseValue : ℤ
  pe : PyNum
  forwardPE : PyNum
  pegRatio : PyNum
  priceToBook : PyNum
  priceToSales : PyNum
  evToRevenue : PyNum
  evToEbitda : PyNum
  revenueGrowth : String
  earningsGrowth : String
  revenue : ℤ
  grossProfit : ℤ
  ebitda : ℤ
  netIncome : ℤ
  eps : PyNum
  eps_raw : JVal
  forwardEps : PyNum
  grossMargin : String
  operatingMargin : String
  profitMargin : String
  ebitdaMargin : String
  roe : String
  roa : String
  totalCash : ℤ
  totalDebt : ℤ
  netDebt : ℤ
  totalAssets : ℤ
  totalEquity : ℤ
  debtToEquity : PyNum
  debtToAssets : PyNum
  currentRatio : PyNum
  quickRatio : PyNum
  operatingCashflow : ℤ
  freeCashflow : ℤ
  dividendRate : PyNum
  dividendYield : String
  payoutRatio : String
  sharesOutstanding : ℤ
  floatShares : ℤ
  beta : PyNum
  shortRatio : ℤ
  fiftyTwoWeekHigh : PyNum
  fiftyTwoWeekLow : PyNum
  incomeStatementHistory : List JVal
  balanceSheetHistory : List JVal
  cashFlowHistory : List JVal
  lastUpdated : String
  dataQuality : String
  dataSource : String
deriving DecidableEq

/-- Lines 182-286: remaining extractions and the `stock_data` dictionary,
field expressions evaluated in source order.  The trailing `expectNum`
steps model the success-print interpolations `f"{price:.2f}"`,
`f"{pe:.1f}"`, `marketCap/1e9`, which raise on non-numeric values before
the record is returned. -/
def build_record (sym : String) (v : QView) (now : String) (price marketCap sharesOut
    eps pe revenue totalCash totalDebt freeCashflow operatingCashflow ebitda
    profitMargin operatingMargin grossMargin roe roa : JVal)
    (totalAssets totalEquity : ℤ) (debtToEquity : PyNum) (priceToBook : JVal) :
    Except Unit StockData := do
  let dividendYield := safe_getv v.dividendYield (.num 0)
  let beta := safe_getv v.beta (.num 1)
  let d1 ← pyMulQ price (6 / 5)
  let fiftyTwoWeekHigh := safe_getv v.fiftyTwoWeekHigh (.num d1)
  let d2 ← pyMulQ price (4 / 5)
  let fiftyTwoWeekLow := safe_getv v.fiftyTwoWeekLow (.num d2)
  let name := safe_getv v.longName (safe_getv v.shortName (.str sym))
  let sector := safe_getv v.sector (.str "Technology")
  let industry := safe_getv v.industry (.str "Software")
  let priceF := format_number price 2
  let change := format_number (safe_getv v.regularMarketChange (.num 0)) 2
  let changePercent := format_number (safe_getv v.regularMarketChangePercent (.num 0)) 2
  let dayHigh := format_number (safe_getv v.regularMarketDayHigh price) 2
  let dayLow := format_number (safe_getv v.regularMarketDayLow price) 2
  let volume ← pyIntJ (safe_getv v.regularMarketVolume (.num 0))
  let previousClose := format_number (safe_getv v.regularMarketPreviousClose price) 2
  let currency := safe_getv v.currency (.str "USD")
  let exchange := safe_getv v.fullExchangeName (.str "Exchange")
  let marketCapI ← pyIntJ marketCap
  let evQ ← pyMulQ marketCap (11 / 10)
  let enterpriseValue := pyTrunc evQ
  let peF := format_number pe 2
  let fpeDef ← pyMulQ pe (9 / 10)
  let forwardPE := format_number (safe_getv v.forwardPE (.num fpeDef)) 2
  let pegRatio := format_number (.num (safe_divide pe (.num 15) 0)) 2
  let cPtb ← pyGt0 priceToBook
  let priceToBookF :=
    if cPtb then format_number priceToBook 2
    else format_number (.num (safe_divide price (.num 20) 0)) 2
  let cRev1 ← pyGt0 revenue
  let priceToSales :=
    if cRev1 then format_number (.num (safe_divide marketCap revenue 0)) 2
    else PyNum.pint 0
  let cRev2 ← pyGt0 revenue
  let evToRevenue ←
    (if cRev2 then do
      let n ← pyMulQ marketCap (11 / 10)
      pure (format_number (.num (safe_divide (.num n) revenue 0)) 2)
    else pure (PyNum.pint 0))
  let cEbitda1 ← pyGt0 ebitda
  let evToEbitda ←
    (if cEbitda1 then do
      let n ← pyMulQ marketCap (11 / 10)
      pure (format_number (.num (safe_divide (.num n) ebitda 0)) 2)
    else pure (PyNum.pint 0))
  let rg ← pyMulJ (safe_getv v.revenueQuarterlyGrowth (.num (1 / 20))) (.num 100)
  let revenueGrowth := renderNum (format_number rg 2) ++ "%"
  let eg ← pyMulJ (safe_getv v.earningsQuarterlyGrowth (.num (1 / 10))) (.num 100)
  let earningsGrowth := renderNum (format_number eg 2) ++ "%"
  let revenueI ← pyIntJ revenue
  let cRev3 ← pyGt0 revenue
  let grossProfit ←
    (if cRev3 then do
      let m ← pyMulJ revenue grossMargin
      pyIntJ m
    else pure 0)
  let ebitdaI ← pyIntJ ebitda
  let cRev4 ← pyGt0 revenue
  let netIncome ←
    (if cRev4 then do
      let m ← pyMulJ revenue profitMargin
      pyIntJ m
    else pure 0)
  let epsF := format_number eps 2
  let cEps ← pyGt0 eps
  let forwardEps ←
    (if cEps then do
      let m ← pyMulQ eps (11 / 10)
      pure (format_number (.num m) 2)
    else pure (PyNum.pint 0))
  let gm ← pyMulJ grossMargin (.num 100)
  let grossMarginS := renderNum (format_number gm 2) ++ "%"
  let om ← pyMulJ operatingMargin (.num 100)
  let operatingMarginS := renderNum (format_number om 2) ++ "%"
  let pm ← pyMulJ profitMargin (.num 100)
  let profitMarginS := renderNum (format_number pm 2) ++ "%"
  let cRev5 ← pyGt0 revenue
  let ebitdaMarginS :=
    if cRev5 then renderNum (format_number (.num (safe_divide ebitda revenue (1 / 5) * 100)) 2) ++ "%"
    else "20.00%"
  let roeM ← pyMulJ roe (.num 100)
  let roeS := renderNum (format_number roeM 2) ++ "%"
  let roaM ← pyMulJ roa (.num 100)
  let roaS := renderNum (format_number roaM 2) ++ "%"
  let totalCashI ← pyIntJ totalCash
  let totalDebtI ← pyIntJ totalDebt
  let nd ← pySub totalDebt totalCash
  let netDebt := pyTrunc nd
  let debtToEquityF := format_number debtToEquity.toJVal 2
  let debtToAssets := format_number (.num (safe_divide totalDebt (.num (totalAssets : ℚ)) 0)) 2
  let currentRatioF := format_number (.num (3 / 2)) 2
  let quickRatioF := format_number (.num (6 / 5)) 2
  let opCfI ← pyIntJ operatingCashflow
  let freeCfI ← pyIntJ freeCashflow
  let cDy1 ← pyGt0 dividendYield
  let dividendRate ←
    (if cDy1 then do
      let m ← pyMulJ price dividendYield
      pure (format_number m 2)
    else pure (PyNum.pint 0))
  let cDy2 ← pyGt0 dividendYield
  let dividendYieldS ←
    (if cDy2 then do
      let m ← pyMulJ dividendYield (.num 100)
      pure (renderNum (format_number m 2) ++ "%")
    else pure "0.00%")
  let cDy3 ← pyGt0 dividendYield
  let payoutRatioS := if cDy3 then "30.00%" else "0.00%"
  let sharesOutI ← pyIntJ sharesOut
  let cSo ← pyGt0 sharesOut
  let floatShares ←
    (if cSo then do
      let m ← pyMulQ sharesOut (9 / 10)
      pure (pyTrunc m)
    else pure 0)
  let betaF := format_number beta 2
  let f52h := format_number fiftyTwoWeekHigh 2
  let f52l := format_number fiftyTwoWeekLow 2
  let _ ← expectNum price
  let _ ← expectNum pe
  let _ ← expectNum marketCap
  pure {
    symbol := sym
    name := name
    sector := sector
    industry := industry
    price := priceF
    change := change
    changePercent := changePercent
    dayHigh := dayHigh
    dayLow := dayLow
    volume := volume
    previousClose := previousClose
    currency := currency
    exchange := exchange
    marketCap := marketCapI
    enterpriseValue := enterpriseValue
    pe := peF
    forwardPE := forwardPE
    pegRatio := pegRatio
    priceToBook := priceToBookF
    priceToSales := priceToSales
    evToRevenue := evToRevenue
    evToEbitda := evToEbitda
    revenueGrowth := revenueGrowth
    earningsGrowth := earningsGrowth
    revenue := revenueI
    grossProfit := grossProfit
    ebitda := ebitdaI
    netIncome := netIncome
    eps := epsF
    eps_raw := eps
    forwardEps := forwardEps
    grossMargin := grossMarginS
    operatingMargin := operatingMarginS
    profitMargin := profitMarginS
    ebitdaMargin := ebitdaMarginS
    roe := roeS
    roa := roaS
    totalCash := totalCashI
    totalDebt := totalDebtI
    netDebt := netDebt
    totalAssets := totalAssets
    totalEquity := totalEquity
    debtToEquity := debtToEquityF
    debtToAssets := debtToAssets
    currentRatio := currentRatioF
    quickRatio := quickRatioF
    operatingCashflow := opCfI
    freeCashflow := freeCfI
    dividendRate := dividendRate
    dividendYield := dividendYieldS
    payoutRatio := payoutRatioS
    sharesOutstanding := sharesOutI
    floatShares := floatShares
    beta := betaF
    shortRatio := 0
    fiftyTwoWeekHigh := f52h
    fiftyTwoWeekLow := f52l
    incomeStatementHistory := []
    balanceSheetHistory := []
    cashFlowHistory := []
    lastUpdated := now
    dataQuality := "complete"
    dataSource := "Yahoo Finance v7 API"
  }

/-- Lines 91-186 followed by the record build: everything after a
successful price gate. -/
def complete_core (sym : String) (v : QView) (now : String) (price : JVal) :
    Except Unit StockData := do
  let (marketCap, sharesOut) ← derive_shares_cap v price
  let (eps, pe) ← derive_eps_pe v price
  let (revenue, totalCash, totalDebt, freeCashflow, operatingCashflow, ebitda) ←
    derive_financials v marketCap
  let (profitMargin, operatingMargin, grossMargin) := derive_margins v
  let (roe, roa) := derive_returns v
  let (totalAssets, bookValue, totalEquity) ←
    derive_assets_equity v marketCap revenue sharesOut
  let debtToEquity := format_number (.num (safe_divide totalDebt (.num (totalEquity : ℚ)) 0)) 2
  let priceToBook ← derive_ptb v price bookValue
  build_record sym v now price marketCap sharesOut eps pe revenue totalCash totalDebt
    freeCashflow operatingCashflow ebitda profitMargin operatingMargin grossMargin
    roe roa totalAssets totalEquity debtToEquity priceToBook

/-- The body of `fetch_stock_yahoo_v7` from the price gate onward (lines
82-288), on the parsed quote view: `.ok none` is the explicit "no price"
return, `.error` any uncaught-in-Python-terms exception reaching the
enclosing handler. -/
def completeV (sym : String) (v : QView) (now : String) : Except Unit (Option StockData) :=
  match gate_price v with
  | none => .ok none
  | some price => (complete_core sym v now price).map some

/-- Record completion on a raw quote, before the exception handler. -/
def completeBody (sym : String) (q : RawQuote) (now : String) : Except Unit (Option StockData) :=
  completeV sym q.view now

/-- The record-completion operation: `fetch_stock_yahoo_v7` for one symbol
given the parsed quote `q` and the clock reading `now`; the enclosing
`try/except` converts every exception into the "no data" signal. -/
def complete (sym : String) (q : RawQuote) (now : String) : Option StockData :=
  match completeBody sym q now with
  | .ok r => r
  | .error _ => none

/-- A value of the output dictionary, for stating schema-level facts. -/
inductive FVal where
  | ofStr : String → FVal
  | ofNum : PyNum → FVal
  | ofInt : ℤ → FVal
  | ofJ : JVal → FVal
  | ofList : List JVal → FVal
deriving DecidableEq

/-- Whether an output value is the JSON null (Python `None`). -/
def FVal.isNull : FVal → Bool
  | .ofJ .null => true
  | _ => false

/-- The completed record as the key-value list of the output dictionary,
in source order. -/
def StockData.fields (r : StockData) : List (String × FVal) :=
  [("symbol", .ofStr r.symbol),
   ("name", .ofJ r.name),
   ("sector", .ofJ r.sector),
   ("industry", .ofJ r.industry),
   ("price", .ofNum r.price),
   ("change", .ofNum r.change),
   ("changePercent", .ofNum r.changePercent),
   ("dayHigh", .ofNum r.dayHigh),
   ("dayLow", .ofNum r.dayLow),
   ("volume", .ofInt r.volume),
   ("previousClose", .ofNum r.previousClose),
   ("currency", .ofJ r.currency),
   ("exchange", .ofJ r.exchange),
   ("marketCap", .ofInt r.marketCap),
   ("enterpriseValue", .ofInt r.enterpriseValue),
   ("pe", .ofNum r.pe),
   ("forwardPE", .ofNum r.forwardPE),
   ("pegRatio", .ofNum r.pegRatio),
   ("priceToBook", .ofNum r.priceToBook),
   ("priceToSales", .ofNum r.priceToSales),
   ("evToRevenue", .ofNum r.evToRevenue),
   ("evToEbitda", .ofNum r.evToEbitda),
   ("revenueGrowth", .ofStr r.revenueGrowth),
   ("earningsGrowth", .ofStr r.earningsGrowth),
   ("revenue", .ofInt r.revenue),
   ("grossProfit", .ofInt r.grossProfit),
   ("ebitda", .ofInt r.ebitda),
   ("netIncome", .ofInt r.netIncome),
   ("eps", .ofNum r.eps),
   ("eps_raw", .ofJ r.eps_raw),
   ("forwardEps", .ofNum r.forwardEps),
   ("grossMargin", .ofStr r.grossMargin),
   ("operatingMargin", .ofStr r.operatingMargin),
   ("profitMargin", .ofStr r.profitMargin),
   ("ebitdaMargin", .ofStr r.ebitdaMargin),
   ("roe", .ofStr r.roe),
   ("roa", .ofStr r.roa),
   ("totalCash", .ofInt r.totalCash),
   ("totalDebt", .ofInt r.totalDebt),
   ("netDebt", .ofInt r.netDebt),
   ("totalAssets", .ofInt r.totalAssets),
   ("totalEquity", .ofInt r.totalEquity),
   ("debtToEquity", .ofNum r.debtToEquity),
   ("debtToAssets", .ofNum r.debtToAssets),
   ("currentRatio", .ofNum r.currentRatio),
   ("quickRatio", .ofNum r.quickRatio),
   ("operatingCashflow", .ofInt r.operatingCashflow),
   ("freeCashflow", .ofInt r.freeCashflow),
   ("dividendRate", .ofNum r.dividendRate),
   ("dividendYield", .ofStr r.dividendYield),
   ("payoutRatio", .ofStr r.payoutRatio),
   ("sharesOutstanding", .ofInt r.sharesOutstanding),
   ("floatShares", .ofInt r.floatShares),
   ("beta", .ofNum r.beta),
   ("shortRatio", .ofInt r.shortRatio),
   ("fiftyTwoWeekHigh", .ofNum r.fiftyTwoWeekHigh),
   ("fiftyTwoWeekLow", .ofNum r.fiftyTwoWeekLow),
   ("incomeStatementHistory", .ofList r.incomeStatementHistory),
   ("balanceSheetHistory", .ofList r.balanceSheetHistory),
   ("cashFlowHistory", .ofList r.cashFlowHistory),
   ("lastUpdated", .ofStr r.lastUpdated),
   ("dataQuality", .ofStr r.dataQuality),
   ("dataSource", .ofStr r.dataSource)]

/-- The fixed output schema: the key list of the output dictionary. -/
def schemaKeys : List String :=
  ["symbol", "name", "sector", "industry", "price", "change", "changePercent",
   "dayHigh", "dayLow", "volume", "previousClose", "currency", "exchange",
   "marketCap", "enterpriseValue", "pe", "forwardPE", "pegRatio", "priceToBook",
   "priceToSales", "evToRevenue", "evToEbitda", "revenueGrowth", "earningsGrowth",
   "revenue", "grossProfit", "ebitda", "netIncome", "eps", "eps_raw", "forwardEps",
   "grossMargin", "operatingMargin", "profitMargin", "ebitdaMargin", "roe", "roa",
   "totalCash", "totalDebt", "netDebt", "totalAssets", "totalEquity", "debtToEquity",
   "debtToAssets", "currentRatio", "quickRatio", "operatingCashflow", "freeCashflow",
   "dividendRate", "dividendYield", "payoutRatio", "sharesOutstanding", "floatShares",
   "beta", "shortRatio", "fiftyTwoWeekHigh", "fiftyTwoWeekLow",
   "incomeStatementHistory", "balanceSheetHistory", "cashFlowHistory",
   "lastUpdated", "dataQuality", "dataSource"]

/-- An observable event of `fetch_json`: one request attempt, or a pause. -/
inductive FetchEvent where
  | att : ℕ → FetchEvent
  | slp : ℕ → FetchEvent
deriving DecidableEq

/-- The retry loop of `fetch_json` (lines 22-34) from attempt number
`attempt`, with the transport (request + parse) abstracted as a stub
indexed by the attempt number.  Returns the result together with the
event trace. -/
def fetch_json_go {α : Type} (stub : ℕ → Except Unit α) (maxRetries attempt : ℕ) :
    Option α × List FetchEvent :=
  if attempt < maxRetries then
    match stub attempt with
    | .ok d => (some d, [.att attempt])
    | .error _ =>
      if attempt < maxRetries - 1 then
        let r := fetch_json_go stub maxRetries (attempt + 1)
        (r.1, .att attempt :: .slp 2 :: r.2)
      else (none, [.att attempt])
  else (none, [])
termination_by maxRetries - attempt

/-- Model of `fetch_json(url)` with the default `max_retries=3`. -/
def fetch_json {α : Type} (stub : ℕ → Except Unit α) : Option α × List FetchEvent :=
  fetch_json_go stub 3 0

/-- Number of request attempts in a fetch trace. -/
def numAttempts (l : List FetchEvent) : ℕ :=
  (l.filter (fun e => match e with | .att _ => true | _ => false)).length

/-! ### Helper lemmas -/

theorem exbind_ok {α β : Type} {x : Except Unit α} {f : α → Except Unit β} {b : β}
    (h : x >>= f = .ok b) : ∃ a, x = .ok a ∧ f a = .ok b := by
  cases x with
  | ok a => exact ⟨a, rfl, h⟩
  | error e => simp [Bind.bind, Except.bind] at h

theorem exok_bind {α β : Type} (a : α) (f : α → Except Unit β) :
    (Except.ok a : Except Unit α) >>= f = f a := rfl

theorem expure_eq_ok {α : Type} (a : α) : (pure a : Except Unit α) = .ok a := rfl

theorem exmap_bind {α β γ : Type} (x : Except Unit α) (f : α → Except Unit β) (g : β → γ) :
    (x >>= f).map g = x >>= fun a => (f a).map g := by
  cases x <;> rfl

theorem exmap_map {α β γ : Type} (x : Except Unit α) (f : α → β) (g : β → γ) :
    (x.map f).map g = x.map (fun a => g (f a)) := by
  cases x <;> rfl

theorem exmap_ok {α β : Type} {x : Except Unit α} {f : α → β} {b : β}
    (h : x.map f = .ok b) : ∃ a, x = .ok a ∧ f a = b := by
  cases x with
  | ok a =>
    refine ⟨a, rfl, ?_⟩
    simpa [Except.map] using h
  | error e => simp [Except.map] at h

theorem safe_getv_ne_null (o : Option JVal) (d : JVal) (hd : d ≠ .null) :
    safe_getv o d ≠ .null := by
  unfold safe_getv
  cases o with
  | none => exact hd
  | some v =>
    by_cases hv : v = .null
    · simp [hv]
      exact hd
    · simp [safe_getv, hv]

theorem toJVal_ne_null (p : PyNum) : p.toJVal ≠ .null := by
  cases p <;> simp [PyNum.toJVal]

/-! ### Concrete raw quotes used by the claims -/

/-- The end-to-end scenario quote of the spec. -/
def rawScenario : RawQuote := RawQuote.of
  [("regularMarketPrice", .num 150), ("marketCap", .num 0),
   ("sharesOutstanding", .num 1000000)]

/-- A quote with a present-but-zero `totalRevenue`, a usable `revenue`
field, and a known market cap. -/
def rawRevZero : RawQuote := RawQuote.of
  [("totalRevenue", .num 0), ("revenue", .num 500), ("marketCap", .num 100),
   ("regularMarketPrice", .num 10)]

/-- Cross-derivation: cap and price known, shares absent. -/
def rawCapOnly : RawQuote := RawQuote.of
  [("marketCap", .num 100), ("regularMarketPrice", .num 10)]

/-- Cross-derivation: shares and price known, cap absent. -/
def rawSharesOnly : RawQuote := RawQuote.of
  [("sharesOutstanding", .num 10), ("regularMarketPrice", .num 10)]

/-- Cross-derivation with explicit zeros instead of absences. -/
def rawCapZeroShares : RawQuote := RawQuote.of
  [("marketCap", .num 100), ("regularMarketPrice", .num 10), ("sharesOutstanding", .num 0)]

/-- Cross-derivation: shares known, cap present as zero. -/
def rawSharesZeroCap : RawQuote := RawQuote.of
  [("sharesOutstanding", .num 10), ("regularMarketPrice", .num 10), ("marketCap", .num 0)]

/-- A minimal quote passing the price gate. -/
def rawPriceOnly : RawQuote := RawQuote.of [("regularMarketPrice", .num 10)]

/-- Both price fields explicitly zero. -/
def rawNoPrice : RawQuote := RawQuote.of
  [("regularMarketPrice", .num 0), ("currentPrice", .num 0)]

/-- The empty quote. -/
def rawEmpty : RawQuote := RawQuote.of []

/-- A transport stub failing on attempts 0 and 1 and succeeding on 2. -/
def stubThird : ℕ → Except Unit ℕ := fun i => if i = 2 then .ok 42 else .error ()

/-- A transport stub failing on every attempt. -/
def stubFail : ℕ → Except Unit ℕ := fun _ => .error ()

/-! ### C2: totality of the division helper -/

/-- C2: the division helper is total: for every numerator `n` and every
caller-supplied default `d`, dividing by `0` yields `d`, and a `None` or
non-numeric (string) denominator also yields `d` instead of an error.
(An absent denominator reaches `safe_divide` as the extraction default
`0`, covered by the zero case.) -/
theorem safe_divide_total (n : JVal) (d : ℚ) :
    safe_divide n (.num 0) d = d ∧ safe_divide n .null d = d ∧
      ∀ s, safe_divide n (.str s) d = d := by
  refine ⟨?_, rfl, fun s => rfl⟩
  simp [safe_divide]

/-! ### C8: retry behaviour of the resilient fetcher -/

/-- C8: with the transport modelled as an attempt-indexed stub, the
fetcher makes at most 3 attempts with a fixed 2-unit pause between
consecutive attempts; failing twice then succeeding yields the parsed
response after exactly 3 attempts, failing three times yields `none`
after exactly 3 attempts, and (by totality of `fetch_json`) no failure
propagates. -/
theorem fetch_json_retry {α : Type} (stub : ℕ → Except Unit α) (d : α) :
    (stub 0 = .error () → stub 1 = .error () → stub 2 = .ok d →
      fetch_json stub = (some d, [.att 0, .slp 2, .att 1, .slp 2, .att 2]))
    ∧ (stub 0 = .error () → stub 1 = .error () → stub 2 = .error () →
      fetch_json stub = (none, [.att 0, .slp 2, .att 1, .slp 2, .att 2]))
    ∧ numAttempts (fetch_json stub).2 ≤ 3 := by
  have e2 : ∀ r : Except Unit α, stub 2 = r →
      fetch_json_go stub 3 2 = (match r with | .ok x => (some x, [.att 2]) | .error _ => (none, [.att 2])) := by
    intro r hr
    rw [fetch_json_go]
    cases r <;> simp [hr]
  have e1 : fetch_json_go stub 3 1 =
      (match stub 1 with
       | .ok x => (some x, [.att 1])
       | .error _ =>
         ((fetch_json_go stub 3 2).1, .att 1 :: .slp 2 :: (fetch_json_go stub 3 2).2)) := by
    rw [fetch_json_go]
    cases h : stub 1 <;> simp [h]
  have e0 : fetch_json stub =
      (match stub 0 with
       | .ok x => (some x, [.att 0])
       | .error _ =>
         ((fetch_json_go stub 3 1).1, .att 0 :: .slp 2 :: (fetch_json_go stub 3 1).2)) := by
    rw [fetch_json, fetch_json_go]
    cases h : stub 0 <;> simp [h]
  refine ⟨?_, ?_, ?_⟩
  · intro h0 h1 h2
    rw [e0, h0, e1, h1, e2 _ h2]
  · intro h0 h1 h2
    rw [e0, h0, e1, h1, e2 _ h2]
  · rw [e0]
    cases h0 : stub 0 with
    | ok x => simp [numAttempts]
    | error e =>
      rw [e1]
      cases h1 : stub 1 with
      | ok x => simp [numAttempts]
      | error e =>
        cases h2 : stub 2 with
        | ok x =>
          rw [e2 _ h2]
          simp [numAttempts]
        | error e =>
          rw [e2 _ h2]
          simp [numAttempts]

/-- Witness for C8 at the two concrete stubs. -/
theorem fetch_json_retry_witness :
    fetch_json stubThird = (some 42, [.att 0, .slp 2, .att 1, .slp 2, .att 2])
    ∧ fetch_json stubFail = (none, [.att 0, .slp 2, .att 1, .slp 2, .att 2]) :=
  ⟨(fetch_json_retry stubThird 42).1 rfl rfl rfl,
   (fetch_json_retry stubFail 0).2.1 rfl rfl rfl⟩

/-! ### C9: end-to-end completion scenario -/

/-- C9: on `{regularMarketPrice: 150, marketCap: 0, sharesOutstanding:
1000000}` the completer yields a record with price `150.00`, marketCap
`150000000` (derived as `shares * price`), priceToBook `7.50` (the
`price / 20` fallback) and currentRatio `1.50`. -/
theorem end_to_end_scenario :
    (complete "TEST" rawScenario "2024-01-01T00:00:00").map
        (fun r => (r.price, r.marketCap, r.priceToBook, r.currentRatio)) =
      some (.pfloat 150, 150000000, .pfloat (15 / 2), .pfloat (3 / 2)) := by
  with_unfolding_all rfl

/-! ### C3: the price gate is the only explicit failure -/

theorem gate_price_none_iff (v : QView) :
    gate_price v = none ↔
      (pyEq0 (safe_getv v.regularMarketPrice (.num 0)) = true ∧
       pyEq0 (safe_getv v.currentPrice (.num 0)) = true) := by
  unfold gate_price
  cases h1 : pyEq0 (safe_getv v.regularMarketPrice (.num 0)) with
  | false => simp [h1]
  | true =>
    cases h2 : pyEq0 (safe_getv v.currentPrice (.num 0)) with
    | false => simp [h1, h2]
    | true => simp [h1, h2]

/-- C3: when both `regularMarketPrice` and `currentPrice` are absent or
equal to 0, completion returns the "no data" signal; and the explicit
(non-exceptional) `None` of the completion body occurs exactly when the
price gate fails, so it is the only explicit failure once a quote entry
exists. -/
theorem price_gate_only_failure (sym : String) (q : RawQuote) (now : String) :
    ((q "regularMarketPrice" = none ∨ q "regularMarketPrice" = some (.num 0)) →
     (q "currentPrice" = none ∨ q "currentPrice" = some (.num 0)) →
     complete sym q now = none)
    ∧ (completeBody sym q now = .ok none ↔
        (pyEq0 (safe_get q "regularMarketPrice" (.num 0)) = true ∧
         pyEq0 (safe_get q "currentPrice" (.num 0)) = true)) := by
  have hiff : completeBody sym q now = .ok none ↔ gate_price q.view = none := by
    unfold completeBody completeV
    cases hg : gate_price q.view with
    | none => simp
    | some p =>
      cases hc : complete_core sym q.view now p <;> simp [Except.map, hc]
  have hview : safe_get q "regularMarketPrice" (.num 0) =
      safe_getv q.view.regularMarketPrice (.num 0) := rfl
  have hview2 : safe_get q "currentPrice" (.num 0) =
      safe_getv q.view.currentPrice (.num 0) := rfl
  constructor
  · intro h1 h2
    have e1 : pyEq0 (safe_getv q.view.regularMarketPrice (.num 0)) = true := by
      show pyEq0 (safe_getv (q "regularMarketPrice") (.num 0)) = true
      rcases h1 with h | h <;> simp [h, safe_getv, pyEq0]
    have e2 : pyEq0 (safe_getv q.view.currentPrice (.num 0)) = true := by
      show pyEq0 (safe_getv (q "currentPrice") (.num 0)) = true
      rcases h2 with h | h <;> simp [h, safe_getv, pyEq0]
    have hb : completeBody sym q now = .ok none :=
      hiff.mpr ((gate_price_none_iff q.view).mpr ⟨e1, e2⟩)
    simp [complete, hb]
  · rw [hiff, gate_price_none_iff, hview, hview2]

/-- Witness for C3 on concrete quotes with explicitly zero and with
absent price fields. -/
theorem price_gate_only_failure_witness :
    complete "T" rawNoPrice "t" = none ∧ complete "T" rawEmpty "t" = none := by
  constructor
  · exact (price_gate_only_failure "T" rawNoPrice "t").1
      (Or.inr (by with_unfolding_all rfl)) (Or.inr (by with_unfolding_all rfl))
  · exact (price_gate_only_failure "T" rawEmpty "t").1
      (Or.inl (by with_unfolding_all rfl)) (Or.inl (by with_unfolding_all rfl))

/-! ### C4: determinism and the clock-stamped metadata field -/

/-- Erase the clock-dependent metadata field. -/
def stripTs (r : StockData) : StockData := { r with lastUpdated := "" }

theorem exbind_map_congr {α β γ : Type} (x : Except Unit α) {f g : α → Except Unit β}
    (m : β → γ) (h : ∀ a, (f a).map m = (g a).map m) :
    (x >>= f).map m = (x >>= g).map m := by
  cases x with
  | error e => rfl
  | ok a => exact h a

theorem build_record_strip (sym : String) (v : QView) (n : String) (price marketCap sharesOut
    eps pe revenue totalCash totalDebt freeCashflow operatingCashflow ebitda
    profitMargin operatingMargin grossMargin roe roa : JVal)
    (totalAssets totalEquity : ℤ) (debtToEquity : PyNum) (priceToBook : JVal) :
    (build_record sym v n price marketCap sharesOut eps pe revenue totalCash totalDebt
        freeCashflow operatingCashflow ebitda profitMargin operatingMargin grossMargin
        roe roa totalAssets totalEquity debtToEquity priceToBook).map stripTs =
    (build_record sym v "" price marketCap sharesOut eps pe revenue totalCash totalDebt
        freeCashflow operatingCashflow ebitda profitMargin operatingMargin grossMargin
        roe roa totalAssets totalEquity debtToEquity priceToBook).map stripTs := by
  simp only [build_record]
  repeat refine exbind_map_congr _ stripTs (fun a => ?_)
  rfl

theorem complete_core_strip (sym : String) (v : QView) (n : String) (p : JVal) :
    (complete_core sym v n p).map stripTs = (complete_core sym v "" p).map stripTs := by
  simp only [complete_core]
  refine exbind_map_congr _ stripTs (fun a => ?_)
  obtain ⟨mc, so⟩ := a
  refine exbind_map_congr _ stripTs (fun b => ?_)
  obtain ⟨eps, pe⟩ := b
  refine exbind_map_congr _ stripTs (fun c => ?_)
  obtain ⟨rv, tc, td, fcf, ocf, eb⟩ := c
  refine exbind_map_congr _ stripTs (fun d => ?_)
  obtain ⟨ta, bv, te⟩ := d
  refine exbind_map_congr _ stripTs (fun ptb => ?_)
  exact build_record_strip sym v n p mc so eps pe rv tc td fcf ocf eb
    (derive_margins v).1 (derive_margins v).2.1 (derive_margins v).2.2
    (derive_returns v).1 (derive_returns v).2 ta te
    (format_number (.num (safe_divide td (.num (te : ℚ)) 0)) 2) ptb

theorem completeBody_strip (sym : String) (q : RawQuote) (n : String) :
    (completeBody sym q n).map (Option.map stripTs) =
    (completeBody sym q "").map (Option.map stripTs) := by
  have key : ∀ x y : Except Unit StockData, x.map stripTs = y.map stripTs →
      x.map (fun a => Option.map stripTs (some a)) = y.map (fun a => Option.map stripTs (some a)) := by
    intro x y h
    cases x <;> cases y <;> first
      | rfl
      | (simp [Except.map] at h ⊢; exact h)
      | simp [Except.map] at h
  unfold completeBody completeV
  cases hg : gate_price q.view with
  | none => rfl
  | some p =>
    rw [exmap_map, exmap_map]
    exact key _ _ (complete_core_strip sym q.view n p)

/-- C4 counterexample: the completion output embeds the clock reading in
`lastUpdated`, so two invocations on the identical raw quote are not
byte-identical when the clock differs. -/
theorem complete_not_clock_independent :
    ¬ (complete "TEST" rawPriceOnly "2024-01-01T00:00:00" =
       complete "TEST" rawPriceOnly "2024-01-02T00:00:00") := by
  intro h
  have h1 : (complete "TEST" rawPriceOnly "2024-01-01T00:00:00").map
      (fun r => r.lastUpdated) = some "2024-01-01T00:00:00" := by
    with_unfolding_all rfl
  have h2 : (complete "TEST" rawPriceOnly "2024-01-02T00:00:00").map
      (fun r => r.lastUpdated) = some "2024-01-02T00:00:00" := by
    with_unfolding_all rfl
  rw [h, h2] at h1
  exact absurd (Option.some.inj h1) (by decide)

/-- C4 amended: completion is a deterministic function of the symbol, the
raw quote, and the clock reading; outputs for different clock readings
agree on every field except the `lastUpdated` timestamp. -/
theorem complete_deterministic_modulo_timestamp (sym : String) (q : RawQuote)
    (n1 n2 : String) :
    (complete sym q n1).map stripTs = (complete sym q n2).map stripTs := by
  have h1 := completeBody_strip sym q n1
  have h2 := completeBody_strip sym q n2
  rw [← h2] at h1
  unfold complete
  cases b1 : completeBody sym q n1 with
  | error e =>
    cases b2 : completeBody sym q n2 with
    | error f => rfl
    | ok o =>
      rw [b1, b2] at h1
      simp [Except.map] at h1
  | ok o1 =>
    cases b2 : completeBody sym q n2 with
    | error f =>
      rw [b1, b2] at h1
      simp [Except.map] at h1
    | ok o2 =>
      rw [b1, b2] at h1
      simp only [Except.map, Except.ok.injEq] at h1
      exact h1

/-! ### C5: shares / market-cap cross-derivation -/

/-- C5: with marketCap 100 and price 10 and shares absent (or zero) the
output sharesOutstanding is 10; with shares 10 and price 10 and marketCap
absent (or zero) the output marketCap is 100; and each rule fires only
when its target is missing: present nonzero targets pass through
unchanged, and a rule whose input is not positive (e.g. a negative
marketCap) does not fire. -/
theorem shares_cap_cross_derivation :
    ((complete "T" rawCapOnly "t").map (fun r => r.sharesOutstanding) = some 10
      ∧ (complete "T" rawCapZeroShares "t").map (fun r => r.sharesOutstanding) = some 10
      ∧ (complete "T" rawSharesOnly "t").map (fun r => r.marketCap) = some 100
      ∧ (complete "T" rawSharesZeroCap "t").map (fun r => r.marketCap) = some 100)
    ∧ (∀ (v : QView) (p : JVal) (mc so : ℚ),
        v.marketCap = some (.num mc) → mc ≠ 0 →
        v.sharesOutstanding = some (.num so) → so ≠ 0 →
        derive_shares_cap v p = .ok (.num mc, .num so))
    ∧ (∀ (v : QView) (p : JVal) (mc : ℚ),
        v.marketCap = some (.num mc) → mc < 0 →
        (v.sharesOutstanding = none ∨ v.sharesOutstanding = some (.num 0)) →
        derive_shares_cap v p = .ok (.num mc, .num 0)) := by
  refine ⟨⟨?_, ?_, ?_, ?_⟩, ?_, ?_⟩
  · with_unfolding_all rfl
  · with_unfolding_all rfl
  · with_unfolding_all rfl
  · with_unfolding_all rfl
  · intro v p mc so hmc hmcne hso hsone
    simp [derive_shares_cap, hmc, hso, safe_getv, pyEq0, hmcne, hsone, expure_eq_ok, exok_bind]
  · intro v p mc hmc hneg hso
    have hmcne : ¬ mc = 0 := by
      intro h
      rw [h] at hneg
      exact absurd hneg (by simp)
    have hnotpos : ¬ (0 < mc) := not_lt.mpr (le_of_lt hneg)
    rcases hso with h | h <;>
      simp [derive_shares_cap, hmc, h, safe_getv, pyEq0, pyGt0, hmcne, hnotpos, exok_bind,
        expure_eq_ok]

/-- Witness for C5 at concrete views: present nonzero targets pass
through unchanged; a negative marketCap does not trigger derivation. -/
theorem shares_cap_cross_derivation_witness :
    derive_shares_cap (RawQuote.view (RawQuote.of
        [("marketCap", .num 7), ("sharesOutstanding", .num 3)])) (.num 10) =
      .ok (.num 7, .num 3)
    ∧ derive_shares_cap (RawQuote.view (RawQuote.of
        [("marketCap", .num (-5))])) (.num 10) = .ok (.num (-5), .num 0) := by
  constructor
  · exact shares_cap_cross_derivation.2.1 _ _ 7 3 rfl (by norm_num) rfl (by norm_num)
  · exact shares_cap_cross_derivation.2.2 _ _ (-5) rfl (by norm_num) (Or.inl rfl)

/-! ### C6: the revenue fallback chain -/

/-- C6 counterexample: on `{totalRevenue: 0, revenue: 500, marketCap:
100, regularMarketPrice: 10}` the completer emits revenue `80 =
int(marketCap * 0.8)`.  The claim would require 500 (the separate
`revenue` field, since `totalRevenue` supplies no usable value) or 0
(present `totalRevenue` taken literally), and forbids the market-cap
estimate because neither field is absent. -/
theorem revenue_fallback_counterexample :
    (complete "T" rawRevZero "t").map (fun r => r.revenue) = some 80
    ∧ (80 : ℤ) ≠ 500 ∧ (80 : ℤ) ≠ 0 :=
  ⟨by with_unfolding_all rfl, by decide, by decide⟩

/-- The amended revenue rule, following the corrected claim text:
revenue is `totalRevenue` when present and non-null (even when 0), else
the `revenue` field when present and non-null, else 0; if the value so
extracted is 0 and the (possibly derived) market cap is positive, it is
replaced by `int(marketCap * 0.8)`.  A present zero `totalRevenue`
therefore masks the `revenue` field and triggers the estimate. -/
def revenueSpec (v : QView) (mc : ℚ) : JVal :=
  let r0 := safe_getv v.totalRevenue (safe_getv v.revenue (.num 0))
  if pyEq0 r0 = true ∧ 0 < mc then .num (pyTrunc (mc * (4 / 5))) else r0

/-- C6 amended: whenever the financial-figures stage succeeds on a
numeric (possibly derived) market cap, its revenue component is exactly
`revenueSpec`. -/
theorem revenue_fallback_amended (v : QView) (mc : ℚ)
    (out : JVal × JVal × JVal × JVal × JVal × JVal)
    (h : derive_financials v (.num mc) = .ok out) : out.1 = revenueSpec v mc := by
  simp only [derive_financials] at h
  obtain ⟨rv, hrv, h⟩ := exbind_ok h
  obtain ⟨tc, htc, h⟩ := exbind_ok h
  obtain ⟨td, htd, h⟩ := exbind_ok h
  obtain ⟨fcf, hfcf, h⟩ := exbind_ok h
  obtain ⟨ocf, hocf, h⟩ := exbind_ok h
  obtain ⟨eb, heb, h⟩ := exbind_ok h
  have hout : out = (rv, tc, td, fcf, ocf, eb) := by
    rw [expure_eq_ok] at h
    exact (Except.ok.inj h).symm
  rw [hout]
  show rv = revenueSpec v mc
  cases hpe : pyEq0 (safe_getv v.totalRevenue (safe_getv v.revenue (.num 0))) with
  | false =>
    rw [hpe] at hrv
    simp only [Bool.false_eq_true, if_false, expure_eq_ok, Except.ok.injEq] at hrv
    subst hrv
    simp [revenueSpec, hpe]
  | true =>
    rw [hpe] at hrv
    simp only [if_true, pyGt0, exok_bind] at hrv
    by_cases hmc : 0 < mc
    · simp only [hmc, decide_eq_true_eq, if_pos, pyMulQ, exok_bind, expure_eq_ok,
        Except.ok.injEq] at hrv
      subst hrv
      simp [revenueSpec, hpe, hmc]
    · simp [hmc, expure_eq_ok] at hrv
      subst hrv
      simp [revenueSpec, hpe, hmc]

/-- Witness for C6's amended rule on the counterexample quote. -/
theorem revenue_fallback_amended_witness :
    revenueSpec (RawQuote.view rawRevZero) 100 = .num 80 := by
  have h := revenue_fallback_amended (RawQuote.view rawRevZero) 100
    (.num 80, .num 15, .num 10, .num 10, .num 12, .num 16) (by with_unfolding_all rfl)
  exact h.symm

/-! ### Inversion of a successful completion -/

theorem build_record_ok (sym : String) (v : QView) (now : String) (price marketCap sharesOut
    eps pe revenue totalCash totalDebt freeCashflow operatingCashflow ebitda
    profitMargin operatingMargin grossMargin roe roa : JVal)
    (totalAssets totalEquity : ℤ) (debtToEquity : PyNum) (priceToBook : JVal)
    (rec : StockData)
    (h : build_record sym v now price marketCap sharesOut eps pe revenue totalCash totalDebt
        freeCashflow operatingCashflow ebitda profitMargin operatingMargin grossMargin
        roe roa totalAssets totalEquity debtToEquity priceToBook = .ok rec) :
    rec.name = safe_getv v.longName (safe_getv v.shortName (.str sym))
    ∧ rec.sector = safe_getv v.sector (.str "Technology")
    ∧ rec.industry = safe_getv v.industry (.str "Software")
    ∧ rec.currency = safe_getv v.currency (.str "USD")
    ∧ rec.exchange = safe_getv v.fullExchangeName (.str "Exchange")
    ∧ rec.eps_raw = eps
    ∧ rec.pegRatio = format_number (.num (safe_divide pe (.num 15) 0)) 2
    ∧ (∃ pmv, pyMulJ profitMargin (.num 100) = .ok pmv
        ∧ rec.profitMargin = renderNum (format_number pmv 2) ++ "%")
    ∧ rec.lastUpdated = now := by
  simp only [build_record] at h
  iterate 24 (obtain ⟨_, _, h⟩ := exbind_ok h)
  obtain ⟨pmv, hpm, h⟩ := exbind_ok h
  iterate 19 (obtain ⟨_, _, h⟩ := exbind_ok h)
  rw [expure_eq_ok] at h
  have hrec := (Except.ok.inj h).symm
  subst hrec
  exact ⟨rfl, rfl, rfl, rfl, rfl, rfl, rfl, ⟨pmv, hpm, rfl⟩, rfl⟩

theorem derive_eps_pe_ne_null (v : QView) (p : JVal) (ep : JVal × JVal)
    (h : derive_eps_pe v p = .ok ep) : ep.1 ≠ .null := by
  simp only [derive_eps_pe] at h
  obtain ⟨pe1, hpe, h⟩ := exbind_ok h
  obtain ⟨e1, he, h⟩ := exbind_ok h
  rw [expure_eq_ok] at h
  have hep := (Except.ok.inj h).symm
  subst hep
  show e1 ≠ .null
  have hdflt : safe_getv v.trailingEps (.num 0) ≠ .null :=
    safe_getv_ne_null _ _ (fun hh => JVal.noConfusion hh)
  cases hc : pyEq0 (safe_getv v.trailingEps (.num 0)) with
  | false =>
    rw [hc] at he
    simp only [Bool.false_eq_true, if_false, expure_eq_ok, Except.ok.injEq] at he
    rw [← he]
    exact hdflt
  | true =>
    rw [hc] at he
    simp only [if_true] at he
    obtain ⟨c1, hc1, he⟩ := exbind_ok he
    cases c1 with
    | false =>
      simp only [Bool.false_eq_true, if_false, expure_eq_ok, Except.ok.injEq] at he
      rw [← he]
      exact hdflt
    | true =>
      simp only [if_true] at he
      obtain ⟨c2, hc2, he⟩ := exbind_ok he
      cases c2 with
      | false =>
        simp only [Bool.false_eq_true, if_false, expure_eq_ok, Except.ok.injEq] at he
        rw [← he]
        exact hdflt
      | true =>
        simp only [if_true, expure_eq_ok, Except.ok.injEq] at he
        rw [← he]
        exact toJVal_ne_null _

theorem complete_some_inv (sym : String) (q : RawQuote) (now : String) (rec : StockData)
    (h : complete sym q now = some rec) :
    ∃ (price : JVal) (mcso epspe : JVal × JVal)
      (fin : JVal × JVal × JVal × JVal × JVal × JVal) (ae : ℤ × JVal × ℤ) (ptb : JVal),
      gate_price q.view = some price
      ∧ derive_shares_cap q.view price = .ok mcso
      ∧ derive_eps_pe q.view price = .ok epspe
      ∧ derive_financials q.view mcso.1 = .ok fin
      ∧ derive_assets_equity q.view mcso.1 fin.1 mcso.2 = .ok ae
      ∧ derive_ptb q.view price ae.2.1 = .ok ptb
      ∧ build_record sym q.view now price mcso.1 mcso.2 epspe.1 epspe.2 fin.1 fin.2.1
          fin.2.2.1 fin.2.2.2.1 fin.2.2.2.2.1 fin.2.2.2.2.2
          (derive_margins q.view).1 (derive_margins q.view).2.1 (derive_margins q.view).2.2
          (derive_returns q.view).1 (derive_returns q.view).2
          ae.1 ae.2.2
          (format_number (.num (safe_divide fin.2.2.1 (.num ((ae.2.2 : ℤ) : ℚ)) 0)) 2) ptb
        = .ok rec := by
  unfold complete at h
  cases hb : completeBody sym q now with
  | error e =>
    rw [hb] at h
    simp at h
  | ok o =>
    rw [hb] at h
    subst h
    unfold completeBody completeV at hb
    cases hg : gate_price q.view with
    | none =>
      rw [hg] at hb
      simp at hb
    | some price =>
      rw [hg] at hb
      obtain ⟨r, hr, hs⟩ := exmap_ok hb
      obtain rfl := Option.some.inj hs
      simp only [complete_core] at hr
      obtain ⟨mcso, h1, hr⟩ := exbind_ok hr
      obtain ⟨epspe, h2, hr⟩ := exbind_ok hr
      obtain ⟨fin, h3, hr⟩ := exbind_ok hr
      obtain ⟨ae, h4, hr⟩ := exbind_ok hr
      obtain ⟨ptb, h5, hr⟩ := exbind_ok hr
      exact ⟨price, mcso, epspe, fin, ae, ptb, rfl, h1, h2, h3, h4, h5, hr⟩

/-! ### C1: totality, full schema, no nulls -/

/-- C1: completion is total (it is a Lean function): for every raw quote
it returns either `none` or a record carrying the full fixed output
schema, with no field null.  Ratio fields are rationals (`PyNum`) by
construction, hence finite: the model has no infinity or NaN, matching
`safe_divide`'s guarantee. -/
theorem complete_total_schema (sym : String) (q : RawQuote) (now : String) :
    complete sym q now = none
    ∨ ∃ rec, complete sym q now = some rec
        ∧ rec.fields.map Prod.fst = schemaKeys
        ∧ ∀ p ∈ rec.fields, p.2.isNull = false := by
  cases h : complete sym q now with
  | none => exact Or.inl rfl
  | some rec =>
    refine Or.inr ⟨rec, rfl, rfl, ?_⟩
    obtain ⟨price, mcso, epspe, fin, ae, ptb, hg, h1, h2, h3, h4, h5, hb⟩ :=
      complete_some_inv sym q now rec h
    obtain ⟨hname, hsec, hind, hcur, hexch, heraw, hpeg, hpm, hlu⟩ :=
      build_record_ok _ _ _ _ _ _ _ _ _ _ _ _ _ _ _ _ _ _ _ _ _ _ _ _ hb
    have hnn : ∀ x : JVal, x ≠ .null → (FVal.ofJ x).isNull = false := by
      intro x hx
      cases x with
      | null => exact absurd rfl hx
      | num a => rfl
      | str a => rfl
    have hstr : ∀ s : String, (JVal.str s) ≠ .null := fun s hh => JVal.noConfusion hh
    intro p hp
    fin_cases hp
    case _ => rfl
    case _ => exact hnn _ (hname ▸ safe_getv_ne_null _ _ (safe_getv_ne_null _ _ (hstr _)))
    case _ => exact hnn _ (hsec ▸ safe_getv_ne_null _ _ (hstr _))
    case _ => exact hnn _ (hind ▸ safe_getv_ne_null _ _ (hstr _))
    all_goals try rfl
    case _ => exact hnn _ (hcur ▸ safe_getv_ne_null _ _ (hstr _))
    case _ => exact hnn _ (hexch ▸ safe_getv_ne_null _ _ (hstr _))
    case _ => exact hnn _ (heraw ▸ derive_eps_pe_ne_null _ _ _ h2)

/-! ### C7: zero-as-missing for the profit margin -/

/-- C7: a raw quote with `profitMargins` present as 0 completes exactly
like the quote with the field omitted (and also exactly like one with
`profitMargins` 0.15, since the 15% default is what a zero triggers);
the emitted profit margin is the default percentage string `"15.0%"`
(and downstream consumers of the margin, such as netIncome, see 0.15). -/
theorem profit_margin_zero_as_missing (sym : String) (q : RawQuote) (now : String) :
    complete sym (q.set "profitMargins" (some (.num 0))) now
      = complete sym (q.set "profitMargins" none) now
    ∧ complete sym (q.set "profitMargins" (some (.num 0))) now
      = complete sym (q.set "profitMargins" (some (.num (3 / 20)))) now
    ∧ ∀ rec, complete sym (q.set "profitMargins" (some (.num 0))) now = some rec →
        rec.profitMargin = "15.0%" := by
  refine ⟨by with_unfolding_all rfl, by with_unfolding_all rfl, ?_⟩
  intro rec h
  obtain ⟨price, mcso, epspe, fin, ae, ptb, hg, h1, h2, h3, h4, h5, hb⟩ :=
    complete_some_inv sym _ now rec h
  obtain ⟨hname, hsec, hind, hcur, hexch, heraw, hpeg, hpm, hlu⟩ :=
    build_record_ok _ _ _ _ _ _ _ _ _ _ _ _ _ _ _ _ _ _ _ _ _ _ _ _ hb
  obtain ⟨pmv, hpmv, hrec⟩ := hpm
  have hm : (derive_margins ((q.set "profitMargins" (some (.num 0))).view)).1
      = .num (3 / 20) := by
    with_unfolding_all rfl
  rw [hm] at hpmv
  have hval : pyMulJ (.num (3 / 20)) (.num 100) = .ok (.num 15) := by
    with_unfolding_all rfl
  have hpv : pmv = .num 15 := (Except.ok.inj (hval.symm.trans hpmv)).symm
  rw [hrec, hpv]
  with_unfolding_all rfl

/-- Witness for C7 on a concrete quote. -/
theorem profit_margin_zero_as_missing_witness :
    complete "T" (rawPriceOnly.set "profitMargins" (some (.num 0))) "t"
      = complete "T" (rawPriceOnly.set "profitMargins" none) "t"
    ∧ (complete "T" (rawPriceOnly.set "profitMargins" (some (.num 0))) "t").map
        (fun r => r.profitMargin) = some "15.0%" := by
  refine ⟨(profit_margin_zero_as_missing "T" rawPriceOnly "t").1, ?_⟩
  have hs : (complete "T" (rawPriceOnly.set "profitMargins" (some (.num 0))) "t").map
      (fun r => r.currentRatio) = some (.pfloat (3 / 2)) := by
    with_unfolding_all rfl
  cases hx : complete "T" (rawPriceOnly.set "profitMargins" (some (.num 0))) "t" with
  | none =>
    rw [hx] at hs
    simp at hs
  | some rec =>
    have := (profit_margin_zero_as_missing "T" rawPriceOnly "t").2.2 rec hx
    simp [this]

/-! ### C10: pegRatio is derived, never read from the raw quote -/

/-- C10: the emitted pegRatio is `format_number(safe_divide(pe, 15, 0),
2)` where `pe` is the derived trailing P/E (so it is 0 whenever the
derived P/E is 0), and a `pegRatio` entry in the raw quote is never
read: overriding that key with any value (or deleting it) leaves the
output unchanged. -/
theorem pegRatio_from_derived_pe (sym : String) (q : RawQuote) (now : String) :
    (∀ w : Option JVal, complete sym (q.set "pegRatio" w) now = complete sym q now)
    ∧ ∀ rec, complete sym q now = some rec →
        ∃ (price : JVal) (epspe : JVal × JVal),
          gate_price q.view = some price
          ∧ derive_eps_pe q.view price = .ok epspe
          ∧ rec.pegRatio = format_number (.num (safe_divide epspe.2 (.num 15) 0)) 2
          ∧ (epspe.2 = .num 0 → rec.pegRatio = .pint 0) := by
  constructor
  · intro w
    have hv : (q.set "pegRatio" w).view = q.view := rfl
    unfold complete completeBody
    rw [hv]
  · intro rec h
    obtain ⟨price, mcso, epspe, fin, ae, ptb, hg, h1, h2, h3, h4, h5, hb⟩ :=
      complete_some_inv sym q now rec h
    obtain ⟨hname, hsec, hind, hcur, hexch, heraw, hpeg, hpm, hlu⟩ :=
      build_record_ok _ _ _ _ _ _ _ _ _ _ _ _ _ _ _ _ _ _ _ _ _ _ _ _ hb
    refine ⟨price, epspe, hg, h2, hpeg, ?_⟩
    intro hz
    rw [hpeg, hz]
    with_unfolding_all rfl

/-- Witness for C10 on the end-to-end scenario quote. -/
theorem pegRatio_from_derived_pe_witness :
    complete "T" (rawScenario.set "pegRatio" (some (.num 7))) "t"
      = complete "T" rawScenario "t"
    ∧ (complete "T" rawScenario "t").map (fun r => r.pegRatio) = some (.pint 0) := by
  refine ⟨(pegRatio_from_derived_pe "T" rawScenario "t").1 (some (.num 7)), ?_⟩
  have hs : (complete "T" rawScenario "t").map (fun r => r.currentRatio)
      = some (.pfloat (3 / 2)) := by
    with_unfolding_all rfl
  cases hx : complete "T" rawScenario "t" with
  | none =>
    rw [hx] at hs
    simp at hs
  | some rec =>
    obtain ⟨price, epspe, hg, hep, hpeg, hz⟩ :=
      (pegRatio_from_derived_pe "T" rawScenario "t").2 rec hx
    have hgv : gate_price (RawQuote.view rawScenario) = some (.num 150) := by
      with_unfolding_all rfl
    have hpr : price = .num 150 := Option.some.inj (hg.symm.trans hgv)
    rw [hpr] at hep
    have hev : derive_eps_pe (RawQuote.view rawScenario) (.num 150)
        = .ok (.num 0, .num 0) := by
      with_unfolding_all rfl
    have hee : epspe = (.num 0, .num 0) := (Except.ok.inj (hev.symm.trans hep)).symm
    have := hz (by rw [hee])
    simp [this]
